import Mathlib

/-!
# Verification of the ArcanWeekly spreadsheet-parsing core

This file gives a shallow embedding, in Lean 4, of the heuristic
spreadsheet-layout parsers of the ArcanWeekly repository
(`src/parsers/*.py`) and proves/refutes the specification claims about
them.

Modelling conventions:
* A `CellGrid` is the raw sheet as a list of rows of cell strings:
  every parser immediately stringifies cells (`astype(str)` /
  `str(...)`) and blanks are normalised to `""` (`fillna('')`), so the
  string-grid view is faithful to what the Python code observes.
* Python string operations (`lower`, `strip`, `in`, `split`,
  `replace`, `startswith`, `endswith`) are re-implemented over
  `List Char` so that every definition reduces inside the kernel.
* `re.search` calls are modelled by a small executable backtracking
  regular-expression engine (`RE.search`) whose alternative ordering
  mirrors the leftmost / greedy / lazy preferences of Python's `re`.
* `pd.to_numeric(..., errors='coerce')` is modelled by an exact
  decimal parser returning `Option ℚ` (`none` plays the role of NaN).
* Python exceptions that the claims are about (`IndexError`,
  `UnboundLocalError`, `FileNotFoundError`, and parser-internal
  failures) are modelled with `Except`.
-/

namespace Arcan

/-! ## Python-style string primitives over `List Char` -/

/-- ASCII lowercase conversion of one character (models `str.lower`
on the ASCII report text handled by these parsers). -/
def charLower (c : Char) : Char :=
  if 'A' ≤ c ∧ c ≤ 'Z' then Char.ofNat (c.toNat + 32) else c

/-- Characters treated as whitespace by `str.strip`. -/
def isWS (c : Char) : Bool :=
  c = ' ' ∨ c = '\t' ∨ c = '\n' ∨ c = '\r'

/-- `str.lower`. -/
def pyLower (s : String) : String := String.mk (s.data.map charLower)

/-- `str.strip`. -/
def pyStrip (s : String) : String :=
  String.mk (((s.data.dropWhile isWS).reverse.dropWhile isWS).reverse)

/-- Substring containment, `sub in s` (for non-empty `sub`). -/
def pyContains (s sub : String) : Bool :=
  (List.range (s.data.length + 1)).any
    (fun i => sub.data.isPrefixOf (s.data.drop i))

/-- `s.startswith(p)`. -/
def pyStartsWith (s p : String) : Bool := p.data.isPrefixOf s.data

/-- `s.endswith(p)`. -/
def pyEndsWith (s p : String) : Bool := p.data.reverse.isPrefixOf s.data.reverse

/-- Split a character list at the first occurrence of the pattern
`pat`, returning the part before and the part after. -/
def splitFirstAux (pat : List Char) : List Char → Option (List Char × List Char)
  | [] => if pat = [] then some ([], []) else none
  | c :: rest =>
    if pat.isPrefixOf (c :: rest) then some ([], (c :: rest).drop pat.length)
    else match splitFirstAux pat rest with
      | some (pre, post) => some (c :: pre, post)
      | none => none

/-- Split a string at the first occurrence of `pat` (a non-empty
pattern), as used to model `re.search('lit = (.+)')`-style captures
and `str.split` with `maxsplit`-like reasoning. -/
def splitFirst (s pat : String) : Option (String × String) :=
  (splitFirstAux pat.data s.data).map (fun p => (String.mk p.1, String.mk p.2))

/-- `str.split(sep)` for a one-character separator. -/
def pySplitChar (sep : Char) (s : String) : List String :=
  (s.data.splitOn sep).map String.mk

/-- `str.replace(old, new)` for a single-character `old` replaced by a
single-character `new` (all occurrences). -/
def pyReplaceChar (old new : Char) (s : String) : String :=
  String.mk (s.data.map (fun c => if c = old then new else c))

/-- `str.replace(old, new)` for multi-character patterns, replacing
left to right, non-overlapping (Python semantics). -/
def pyReplaceAux (old new : List Char) : List Char → ℕ → List Char
  | _, 0 => []
  | [], _ => []
  | c :: rest, fuel + 1 =>
    if old ≠ [] ∧ old.isPrefixOf (c :: rest) then
      new ++ pyReplaceAux old new ((c :: rest).drop old.length) fuel
    else
      c :: pyReplaceAux old new rest fuel

/-- `str.replace(old, new)` (non-empty `old`). -/
def pyReplace (s old new : String) : String :=
  String.mk (pyReplaceAux old.data new.data s.data (s.data.length + 1))

/-- Remove every character of `bad` from `s`: models
`re.sub('[<chars>]', '', s)` for a plain character class. -/
def removeChars (bad : List Char) (s : String) : String :=
  String.mk (s.data.filter (fun c => ¬ bad.contains c))

/-- `' '.join(row)`. -/
def joinSpace : List String → String
  | [] => ""
  | [s] => s
  | s :: rest => s ++ " " ++ joinSpace rest

/-- Decimal representation of a natural number (kernel-reducible). -/
def natToStrAux : ℕ → ℕ → List Char
  | 0, _ => []
  | fuel + 1, n =>
    if n < 10 then [Char.ofNat (48 + n)]
    else natToStrAux fuel (n / 10) ++ [Char.ofNat (48 + n % 10)]

/-- Decimal representation of a natural number. -/
def natToStr (n : ℕ) : String := String.mk (natToStrAux (n + 1) n)

/-! ## A small executable regular-expression engine

Models the `re.search` calls of the parsers.  Alternatives are
produced in Python's backtracking preference order: for a greedy star
"one more repetition" is preferred over stopping, for a lazy star
stopping is preferred; concatenation backtracks the left component
first.  `search` tries match start positions left to right, so the
first produced alternative is exactly the match `re.search` yields. -/

/-- Regular expressions: character classes, literals, concatenation,
greedy/lazy Kleene star and numbered capture groups. -/
inductive RE : Type where
  | lit (cs : List Char)
  | cls (p : Char → Bool)
  | cat (a b : RE)
  | starG (r : RE)
  | starL (r : RE)
  | group (n : ℕ) (r : RE)

/-- Captures: group number paired with captured text. -/
abbrev Caps := List (ℕ × String)

/-- Size of a regular expression, used to bound matcher recursion. -/
def RE.size : RE → ℕ
  | .lit _ => 1
  | .cls _ => 1
  | .cat a b => a.size + b.size + 1
  | .starG r => r.size + 1
  | .starL r => r.size + 1
  | .group _ r => r.size + 1

/-- All ways to match a prefix of `s` against `re`, returning the
remaining suffix and captures, in backtracking preference order.  The
`fuel` argument bounds recursion depth; each recursion level either
descends into a subexpression or re-enters a star on a strictly
shorter suffix (a star iteration must consume at least one character,
matching Python's empty-match rule for repetition), so a fuel of
`(re.size + 1) * (|s| + 2)` is never exhausted. -/
def RE.mat : ℕ → RE → List Char → List (List Char × Caps)
  | 0, _, _ => []
  | _ + 1, .lit cs, s => if cs.isPrefixOf s then [(s.drop cs.length, [])] else []
  | _ + 1, .cls _, [] => []
  | _ + 1, .cls p, c :: rest => if p c then [(rest, [])] else []
  | fuel + 1, .cat a b, s =>
    (RE.mat fuel a s).flatMap (fun r1 =>
      (RE.mat fuel b r1.1).map (fun r2 => (r2.1, r1.2 ++ r2.2)))
  | fuel + 1, .starG r, s =>
    ((RE.mat fuel r s).flatMap (fun r1 =>
      if r1.1.length < s.length then
        (RE.mat fuel (.starG r) r1.1).map (fun r2 => (r2.1, r1.2 ++ r2.2))
      else [])) ++ [(s, [])]
  | fuel + 1, .starL r, s =>
    (s, []) :: (RE.mat fuel r s).flatMap (fun r1 =>
      if r1.1.length < s.length then
        (RE.mat fuel (.starL r) r1.1).map (fun r2 => (r2.1, r1.2 ++ r2.2))
      else [])
  | fuel + 1, .group n r, s =>
    (RE.mat fuel r s).map (fun r1 =>
      (r1.1, r1.2 ++ [(n, String.mk (s.take (s.length - r1.1.length)))]))

/-- Run the matcher with sufficient fuel. -/
def RE.matFull (re : RE) (s : List Char) : List (List Char × Caps) :=
  RE.mat ((re.size + 1) * (s.length + 2)) re s

/-- Try to match at the start of `s`; on failure slide one character
to the right (leftmost-match rule of `re.search`). -/
def RE.searchAux (re : RE) : List Char → Option Caps
  | [] =>
    match RE.matFull re [] with
    | r :: _ => some r.2
    | [] => none
  | c :: t =>
    match RE.matFull re (c :: t) with
    | r :: _ => some r.2
    | [] => RE.searchAux re t

/-- `re.search(pattern, s)`: captures of the leftmost match. -/
def RE.search (re : RE) (s : String) : Option Caps := RE.searchAux re s.data

/-- `match.group(n)`. -/
def capGroup (caps : Caps) (n : ℕ) : Option String :=
  (caps.find? (fun c => c.1 = n)).map Prod.snd

/-- `\w`: word characters. -/
def isWordChar (c : Char) : Bool := c.isAlphanum ∨ c = '_'

/-- `p+` as `p · p*` (greedy). -/
def RE.plus (p : Char → Bool) : RE := .cat (.cls p) (.starG (.cls p))

/-- `.` (any character except a newline). -/
def reDot : Char → Bool := fun c => c ≠ '\n'

/-! ## The concrete regular expressions used by the parsers -/

/-- `re.search(r'(\w+)\s*\((\w+)\)', s)` returning
`(group(1), group(2))`; used for `"<name> (<code>)"` property cells
(`resanalytics_box_parser.py:34`, `budget_comparison_parser.py:31`). -/
def propertySearch (s : String) : Option (String × String) := do
  let caps ← RE.search
    (.cat (.group 1 (RE.plus isWordChar))
      (.cat (.starG (.cls isWS))
        (.cat (.lit ['('])
          (.cat (.group 2 (RE.plus isWordChar)) (.lit [')']))))) s
  let g1 ← capGroup caps 1
  let g2 ← capGroup caps 2
  pure (g1, g2)

/-- Characters of the date character class `[0-9/\-]`. -/
def isDateChar (c : Char) : Bool := c.isDigit ∨ c = '/' ∨ c = '-'

/-- `re.search(r'Date.*?=.*?([0-9/\-]+.*?[0-9/\-]+)', s)` returning
`group(1)` (`resanalytics_box_parser.py:43`). -/
def dateSearch (s : String) : Option String := do
  let caps ← RE.search
    (.cat (.lit "Date".data)
      (.cat (.starL (.cls reDot))
        (.cat (.lit ['='])
          (.cat (.starL (.cls reDot))
            (.group 1
              (.cat (RE.plus isDateChar)
                (.cat (.starL (.cls reDot)) (RE.plus isDateChar)))))))) s
  capGroup caps 1

/-- `re.search(r'<label>(.+)', s)` returning `group(1)`: the text
after the first occurrence of the literal `label`, to the end of the
line.  Models the `'Period = (.+)'`, `'Book = (.+)'`, `'Tree = (.+)'`
and `'Property=(\w+)'`-style searches where the tail capture is
unconstrained. -/
def labelTailSearch (label : String) (s : String) : Option String := do
  let caps ← RE.search (.cat (.lit label.data) (.group 1 (RE.plus reDot))) s
  capGroup caps 1

/-- `re.search(r'Property=(\w+)', s)` returning `group(1)`
(`work_order_parser.py:35`). -/
def propertyCodeSearch (s : String) : Option String := do
  let caps ← RE.search (.cat (.lit "Property=".data) (.group 1 (RE.plus isWordChar))) s
  capGroup caps 1

/-- `re.search(r"Status='([^']+)'", s)` returning `group(1)`
(`work_order_parser.py:40`). -/
def statusSearch (s : String) : Option String := do
  let apos : Char := Char.ofNat 39
  let caps ← RE.search
    (.cat (.lit ("Status=".data ++ [apos]))
      (.cat (.group 1 (RE.plus (fun c => c ≠ apos))) (.lit [apos]))) s
  capGroup caps 1

/-! ## Numeric coercion (`pd.to_numeric(..., errors='coerce')`) -/

/-- Numeric value of a digit list (most significant first). -/
def digitsToNat (cs : List Char) : ℕ :=
  cs.foldl (fun a c => a * 10 + (c.toNat - 48)) 0

/-- Parse an unsigned decimal numeral: digits with at most one `.`
and at least one digit overall. -/
def parseUnsigned (cs : List Char) : Option ℚ :=
  match cs.splitOn '.' with
  | [intPart] =>
    if intPart ≠ [] ∧ intPart.all Char.isDigit then
      some (digitsToNat intPart)
    else none
  | [intPart, fracPart] =>
    if (intPart ≠ [] ∨ fracPart ≠ []) ∧ intPart.all Char.isDigit ∧
        fracPart.all Char.isDigit then
      some (mkRat (digitsToNat (intPart ++ fracPart)) (10 ^ fracPart.length))
    else none
  | _ => none

/-- `pd.to_numeric(s, errors='coerce')` on a single cell string:
`none` models the NaN produced on parse failure.  Rationals stand in
for floats; every value these reports coerce is an exactly
representable decimal. -/
def toNumeric (s : String) : Option ℚ :=
  let t := (pyStrip s).data
  match t with
  | '-' :: rest => (parseUnsigned rest).map Neg.neg
  | '+' :: rest => parseUnsigned rest
  | _ => parseUnsigned t

/-- Cell-level numeric cleaning of `budget_comparison_parser.py:94-97`:
`series.str.replace(r'[,$()]', '', regex=True)` then
`series.str.replace('-', '0')` then
`pd.to_numeric(series, errors='coerce')`. -/
def budgetCoerceCell (s : String) : Option ℚ :=
  toNumeric (pyReplaceChar '-' '0' (removeChars [',', '$', '(', ')'] s))

/-- Cell-level numeric cleaning of
`resanalytics_box_parser.py:185-187`:
`.str.replace(',', '').str.replace('$', '').str.strip()`, then
`.replace('', '0')`, then
`pd.to_numeric(..., errors='coerce').fillna(0)`. -/
def boxCoerceCell (s : String) : ℚ :=
  let cleaned := pyStrip (pyReplace (pyReplace s "," "") "$" "")
  let cleaned := if cleaned = "" then "0" else cleaned
  (toNumeric cleaned).getD 0

/-! ## Cell grids

A `CellGrid` is the stringified sheet: every parser works on
`df_raw.iloc[...]` values passed through `astype(str)`/`str(...)`
with `fillna('')`, so cells are strings and blanks are `""`.
(`str(...)` of a raw NaN is `'nan'`; no pattern used by the parsers
can match either `''` or `'nan'`, so blanks are uniformly `""`.) -/

abbrev Row := List String

abbrev CellGrid := List Row

/-- Row `i` of the grid (full width), `df_raw.iloc[i, :]`. -/
def gridRow (g : CellGrid) (i : ℕ) : Row := (g.get? i).getD []

/-- `str(df_raw.iloc[i, j])` with blanks as `""`. -/
def getCell (g : CellGrid) (i j : ℕ) : String := ((gridRow g i).get? j).getD ""

/-- `df_raw.iloc[i, :w].fillna('').astype(str).tolist()`: exactly `w`
cells, padding with blanks. -/
def rowSlice (w : ℕ) (r : Row) : Row :=
  (r ++ List.replicate (w - r.length) "").take w

/-! ## ResAnalytics Box Score parser
(`src/parsers/resanalytics_box_parser.py`) -/

/-- Typed cell values after numeric coercion; `nan` models the NaN a
coercing `pd.to_numeric` leaves behind when no `fillna` follows. -/
inductive CellVal : Type where
  | str (s : String)
  | num (q : ℚ)
  | nan
  deriving DecidableEq, Repr

/-- A section's extracted table: column names plus row records. -/
structure ExtractedTable : Type where
  headers : List String
  rows : List (List CellVal)
  deriving DecidableEq, Repr

/-- Header vocabulary of `_extract_section_data`
(`resanalytics_box_parser.py:114`). -/
def headerWords : List String :=
  ["code", "name", "units", "calls", "move", "rent", "contact", "walk",
   "email", "web", "sms"]

/-- Header-likelihood score of a candidate row: one point per
vocabulary word occurring in the space-joined lowercased row text,
plus a bonus of 5 when the first cell (lowercased, stripped) is
exactly `"code"` (`resanalytics_box_parser.py:110-119`). -/
def rowScore (row : Row) : ℕ :=
  let joined := pyLower (joinSpace row)
  (headerWords.filter (fun w => pyContains joined w)).length +
    (if pyStrip (pyLower (row.headD "")) = "code" then 5 else 0)

/-- Candidate header rows inspected for a section starting at
`startRow`: `range(start_row + 1, min(start_row + 5, len(df_raw)))`. -/
def windowIdxs (g : CellGrid) (startRow : ℕ) : List ℕ :=
  List.range' (startRow + 1) (min (startRow + 5) g.length - (startRow + 1))

/-- One step of the best-scoring-row fold: a candidate replaces the
current best only on a strictly greater score. -/
def bestHeaderStep (g : CellGrid) (acc : Option ℕ × ℕ) (i : ℕ) : Option ℕ × ℕ :=
  if rowScore (gridRow g i) > acc.2 then (some i, rowScore (gridRow g i)) else acc

/-- The chosen header row for a section starting at `startRow`
(`resanalytics_box_parser.py:103-123`); `none` when no candidate
scores above zero. -/
def findHeaderRow (g : CellGrid) (startRow : ℕ) : Option ℕ :=
  ((windowIdxs g startRow).foldl (bestHeaderStep g) (none, 0)).1

/-- Header cleaning (`resanalytics_box_parser.py:132-138`): strip each
header cell and keep an initial run of non-empty cells not starting
with `Unnamed` (reading stops at the first empty header). -/
def cleanHeaders (row : Row) : List String :=
  (row.map pyStrip).takeWhile (fun h => h ≠ "" ∧ ¬ pyStartsWith h "Unnamed")

/-- Does a first cell mark the start of another section?
(`resanalytics_box_parser.py:154-155`). -/
def isBoxBoundary (firstCell : String) : Bool :=
  (["availability", "resident", "activity"].any (fun k => pyContains firstCell k)) ∨
    (pyContains firstCell "conversion" ∧ pyContains firstCell "ratios")

/-- Data-row consumption loop of `_extract_section_data`
(`resanalytics_box_parser.py:144-162`): skip all-blank rows, stop
before a section-boundary row, and stop after appending a row whose
first cell contains `"total"` once more than two rows are collected
(note the order: the total row is appended first, then the loop
breaks). -/
def extractDataRows (w : ℕ) : List Row → List Row → List Row
  | [], acc => acc.reverse
  | r :: rest, acc =>
    let rowData := rowSlice w r
    if rowData.all (fun c => pyStrip c = "") then extractDataRows w rest acc
    else
      let firstCell := pyStrip (pyLower (rowData.headD ""))
      if isBoxBoundary firstCell then acc.reverse
      else if pyContains firstCell "total" ∧ (rowData :: acc).length > 2 then
        (rowData :: acc).reverse
      else extractDataRows w rest (rowData :: acc)

/-- Numeric-column keyword sets per section
(`resanalytics_box_parser.py:171-178`). -/
def boxNumericPatterns (sectionName : String) : List String :=
  if sectionName = "availability" then
    ["sq ft", "rent", "units", "occupied", "vacant"]
  else if sectionName = "resident_activity" then
    ["units", "move", "reverse", "cancel", "notice", "term"]
  else if sectionName = "conversion_ratios" then
    ["calls", "walk", "email", "sms", "web", "chat", "contact", "other"]
  else ["units", "count", "total"]

/-- Apply `boxCoerceCell` to every cell of a column whose lowercased
name contains a numeric keyword (`resanalytics_box_parser.py:180-189`). -/
def boxCoerceTable (sectionName : String) (headers : List String)
    (rows : List Row) : ExtractedTable :=
  let numericCol := fun h =>
    (boxNumericPatterns sectionName).any (fun p => pyContains (pyLower h) p)
  ⟨headers, rows.map (fun r => (headers.zip r).map (fun hc =>
    if numericCol hc.1 then .num (boxCoerceCell hc.2) else .str hc.2))⟩

/-- `_extract_section_data(df_raw, start_row, section_name)`.  Returns
`none` where the Python returns `None` (no header row scored above
zero, no usable headers, or no data rows). -/
def extractSectionData (g : CellGrid) (startRow : ℕ) (sectionName : String) :
    Option ExtractedTable :=
  match findHeaderRow g startRow with
  | none => none
  | some h =>
    let headers := cleanHeaders (gridRow g h)
    if headers.isEmpty then none
    else
      let dataRows := extractDataRows headers.length (g.drop (h + 1)) []
      if dataRows.isEmpty then none
      else some (boxCoerceTable sectionName headers dataRows)

/-- Section keyword groups (`resanalytics_box_parser.py:52-56`). -/
def sectionPatterns : List (String × List String) :=
  [("availability", ["availability", "avail"]),
   ("resident_activity", ["resident", "activity"]),
   ("conversion_ratios", ["conversion", "ratios"])]

/-- Keyword-group match on a first cell: `conversion_ratios` requires
all its keywords in the cell, other sections any one of them
(`resanalytics_box_parser.py:63-71`). -/
def sectionMatches (name : String) (pats : List String) (firstCell : String) : Bool :=
  if name = "conversion_ratios" then pats.all (fun p => pyContains firstCell p)
  else pats.any (fun p => pyContains firstCell p)

/-- Python-dict assignment `d[k] = v` on an insertion-ordered
association list: overwrite in place (keeping insertion order), else
append. -/
def assocUpdate : List (String × ℕ) → String → ℕ → List (String × ℕ)
  | [], k, v => [(k, v)]
  | p :: l, k, v => if p.1 = k then (k, v) :: l else p :: assocUpdate l k v

/-- Processing of one grid row by the section-location scan. -/
def locateStep (g : CellGrid) (acc : List (String × ℕ)) (i : ℕ) : List (String × ℕ) :=
  let firstCell := pyStrip (pyLower (getCell g i 0))
  sectionPatterns.foldl
    (fun a p => if sectionMatches p.1 p.2 firstCell then assocUpdate a p.1 i else a) acc

/-- The section-location mapping (`resanalytics_box_parser.py:59-71`):
scan every row; a later matching row overwrites an earlier one. -/
def sectionLocations (g : CellGrid) : List (String × ℕ) :=
  (List.range g.length).foldl (locateStep g) []

/-- The `data_sections` mapping (`resanalytics_box_parser.py:73-80`):
extract every located section and keep the non-empty results.  (The
`try/except` around `_extract_section_data` is vacuous here: the
embedded extraction is total.) -/
def dataSections (g : CellGrid) : List (String × ExtractedTable) :=
  (sectionLocations g).foldl (fun acc p =>
    match extractSectionData g p.2 p.1 with
    | some t => if t.rows.isEmpty then acc else acc ++ [(p.1, t)]
    | none => acc) []

/-- Scalar metadata values. -/
inductive MetaVal : Type where
  | str (s : String)
  | strList (l : List String)
  | nat (n : ℕ)
  deriving DecidableEq, Repr

/-- Box-score metadata (`resanalytics_box_parser.py:29-46`): first
property-pattern match among the first 5 rows, first date-pattern
match among the first 10. -/
def boxMetadata (g : CellGrid) : List (String × MetaVal) :=
  let m :=
    match (List.range (min 5 g.length)).findSome?
        (fun i => propertySearch (getCell g i 0)) with
    | some nc => [("property_name", MetaVal.str nc.1), ("property_code", MetaVal.str nc.2)]
    | none => []
  match (List.range (min 10 g.length)).findSome?
      (fun i => dateSearch (getCell g i 0)) with
  | some d => m ++ [("date_range", MetaVal.str d)]
  | none => m

/-- The dictionary returned by `parse_resanalytics_box_score`
(`resanalytics_box_parser.py:82-87`), with the file already loaded
into a `CellGrid`. -/
structure BoxResult : Type where
  metadata : List (String × MetaVal)
  data_sections : List (String × ExtractedTable)
  file_path : String
  parser_type : String
  deriving DecidableEq, Repr

/-- `parse_resanalytics_box_score` on an in-memory grid. -/
def parse_resanalytics_box_score (filePath : String) (g : CellGrid) : BoxResult :=
  { metadata := boxMetadata g
    data_sections := dataSections g
    file_path := filePath
    parser_type := "resanalytics_box_score" }

/-! ## Python exceptions relevant to the claims -/

/-- The Python exceptions the embedded code can raise. -/
inductive PyErr : Type where
  | indexError
  | unboundLocalError
  | fileNotFound (msg : String)
  deriving DecidableEq, Repr

/-- `str(df_raw.iloc[i, 0])`: raises `IndexError` when row `i` does
not exist (pandas "single positional indexer is out-of-bounds"). -/
def ilocStr (g : CellGrid) (i : ℕ) : Except PyErr String :=
  if i < g.length then .ok (getCell g i 0) else .error .indexError

/-- Python-dict assignment for metadata mappings. -/
def metaUpdate (l : List (String × MetaVal)) (k : String) (v : MetaVal) :
    List (String × MetaVal) :=
  if l.any (fun p => p.1 = k) then l.map (fun p => if p.1 = k then (k, v) else p)
  else l ++ [(k, v)]

/-! ## Budget Comparison parser
(`src/parsers/budget_comparison_parser.py`) -/

/-- `str.split(sep)` for a multi-character separator (non-empty). -/
def pySplitStrAux (sep : List Char) : List Char → ℕ → List (List Char)
  | cs, 0 => [cs]
  | cs, fuel + 1 =>
    match splitFirstAux sep cs with
    | some (pre, post) => pre :: pySplitStrAux sep post fuel
    | none => [cs]

/-- `str.split(sep)` for a multi-character separator (non-empty). -/
def pySplitStr (s sep : String) : List String :=
  (pySplitStrAux sep.data s.data (s.data.length + 1)).map String.mk

/-- Metadata extraction of `parse_budget_comparison`
(`budget_comparison_parser.py:28-55`).  Rows 0, 2 and 3 are read with
unguarded `df_raw.iloc[i, 0]`, so grids with fewer than 3 (resp. 4)
rows raise `IndexError`; only row 1 is guarded by `len(df_raw) > 1`. -/
def budgetMetadata (g : CellGrid) : Except PyErr (List (String × MetaVal)) := do
  let c0 ← ilocStr g 0
  let m0 := match propertySearch c0 with
    | some nc =>
      [("property_name", MetaVal.str nc.1), ("property_code", MetaVal.str nc.2)]
    | none => []
  let m1 ←
    if g.length > 1 then do
      let c1 ← ilocStr g 1
      pure (m0 ++ [("report_type", MetaVal.str (pyStrip c1))])
    else pure m0
  let c2 ← ilocStr g 2
  let m2 := match labelTailSearch "Period = " c2 with
    | some p => m1 ++ [("period", MetaVal.str p)]
    | none => m1
  let c3 ← ilocStr g 3
  let m3 := match labelTailSearch "Book = " c3 with
    | some bookInfo =>
      if pyContains bookInfo ";" then
        let parts := pySplitChar ';' bookInfo
        let books := (pySplitChar ',' (parts.headD "")).map pyStrip
        let treePart := if parts.length > 1 then pyStrip ((parts.get? 1).getD "") else ""
        let m := m2 ++ [("books", MetaVal.strList books)]
        match labelTailSearch "Tree = " treePart with
        | some t => m ++ [("tree", MetaVal.str t)]
        | none => m
      else m2
    | none => m2
  pure m3

/-- Numeric-column keywords of the budget parser
(`budget_comparison_parser.py:91`). -/
def budgetNumericKeywords : List String := ["actual", "budget", "variance", "ytd"]

/-- Column-level coercion of the budget parser
(`budget_comparison_parser.py:90-97`): columns whose lowercased name
contains one of the keywords get `budgetCoerceCell`, with parse
failures left as NaN (no `fillna`). -/
def budgetCoerceTable (headers : List String) (rows : List Row) : ExtractedTable :=
  let numericCol := fun h =>
    budgetNumericKeywords.any (fun k => pyContains (pyLower h) k)
  ⟨headers, rows.map (fun r => (headers.zip r).map (fun hc =>
    if numericCol hc.1 then
      match budgetCoerceCell hc.2 with
      | some q => .num q
      | none => .nan
    else .str hc.2))⟩

/-! ## Work Order parser (`src/parsers/work_order_parser.py`) -/

/-- Metadata extraction of `parse_work_order_report`
(`work_order_parser.py:31-42`): scan the first `min(3, len)` rows for
a cell containing `Property=`; no break, later rows overwrite. -/
def woMetadata (g : CellGrid) : List (String × MetaVal) :=
  (List.range (min 3 g.length)).foldl (fun m i =>
    let c := getCell g i 0
    if pyContains c "Property=" then
      let m := match propertyCodeSearch c with
        | some pc => metaUpdate m "property_code" (.str pc)
        | none => m
      match statusSearch c with
      | some st =>
        metaUpdate m "status_filters"
          (.strList ((pySplitStr st ("'" ++ "," ++ "'")).map pyStrip))
      | none => m
    else m) []

/-- Header-row search of `parse_work_order_report`
(`work_order_parser.py:45-49`). -/
def woHeaderRow (g : CellGrid) : Option ℕ :=
  (List.range g.length).find? (fun i =>
    pyContains (getCell g i 0) "WO#" ∨ pyContains (getCell g i 1) "Brief Desc")

/-- Type cleaning of the work-order table
(`work_order_parser.py:66-72`): `WO#` coerced with
`pd.to_numeric(..., errors='coerce')` (NaN kept), `Caller Phone`
reduced to its digits (`re.sub(r'[^\d]', '', ...)`). -/
def woCoerceTable (headers : List String) (rows : List Row) : ExtractedTable :=
  ⟨headers, rows.map (fun r => (headers.zip r).map (fun hc =>
    if hc.1 = "WO#" then
      match toNumeric hc.2 with
      | some q => .num q
      | none => .nan
    else if hc.1 = "Caller Phone" then
      .str (String.mk (hc.2.data.filter Char.isDigit))
    else .str hc.2))⟩

/-- The dictionary returned by `parse_work_order_report`
(`work_order_parser.py:79-84`). -/
structure WorkOrderResult : Type where
  metadata : List (String × MetaVal)
  work_orders : ExtractedTable
  file_path : String
  parser_type : String
  deriving DecidableEq, Repr

/-- `parse_work_order_report` on an in-memory grid
(`work_order_parser.py:13-84`).  When a header row is found but no
non-empty data row follows, `work_order_df` is never assigned (the
`if work_orders:` branch is skipped and the `else` of
`if header_row is not None:` does not run), so the final `return`
raises `UnboundLocalError`. -/
def parse_work_order_report (filePath : String) (g : CellGrid) :
    Except PyErr WorkOrderResult :=
  let metadata := woMetadata g
  match woHeaderRow g with
  | some h =>
    let headers := ((gridRow g h).map pyStrip).filter (fun x => x ≠ "")
    let workOrders := ((g.drop (h + 1)).map (rowSlice headers.length)).filter
      (fun r => r.any (fun c => pyStrip c ≠ ""))
    if workOrders.isEmpty then .error .unboundLocalError
    else
      let df := woCoerceTable headers workOrders
      .ok { metadata := metaUpdate metadata "work_order_count" (.nat df.rows.length)
            work_orders := df
            file_path := filePath
            parser_type := "work_order_report" }
  | none =>
    .ok { metadata := metaUpdate metadata "work_order_count" (.nat 0)
          work_orders := ⟨[], []⟩
          file_path := filePath
          parser_type := "work_order_report" }

/-! ## ResAnalytics Unit Availability multi-row header merge
(`src/parsers/resanalytics_unit_parser.py:66-83`) -/

/-- Merge one column's pair of header cells
(`resanalytics_unit_parser.py:69-79`). -/
def combineHeaderPair (i : ℕ) (h1 h2 : String) : String :=
  if pyStrip h1 ≠ "" ∧ pyStrip h2 ≠ "" then
    if pyStrip h1 = pyStrip h2 then pyStrip h1
    else pyStrip (pyStrip h1 ++ " " ++ pyStrip h2)
  else if pyStrip h1 ≠ "" then pyStrip h1
  else if pyStrip h2 ≠ "" then pyStrip h2
  else "Column_" ++ natToStr i

/-- Column-wise merge of the two adjacent header rows. -/
def mergedHeadersRaw (r1 r2 : Row) : List String :=
  ((r1.zip r2).enum).map (fun p => combineHeaderPair p.1 p.2.1 p.2.2)

/-- The merged header list after the trailing-synthetic-column pop
loop `while headers and headers[-1].startswith('Column_')`
(`resanalytics_unit_parser.py:82-83`). -/
def mergedHeaders (r1 r2 : Row) : List String :=
  ((mergedHeadersRaw r1 r2).reverse.dropWhile
    (fun h => pyStartsWith h "Column_")).reverse

/-! ## Dispatcher (`src/parsers/file_parser.py`) -/

/-- The filesystem facts the dispatcher consults: which paths exist,
and the sheet names of a workbook (`none` models `pd.ExcelFile`
raising). -/
structure World : Type where
  fileExists : String → Bool
  sheets : String → Option (List String)

/-- `os.path.basename`. -/
def basename (p : String) : String := ((pySplitChar '/' p).getLast?).getD p

/-- `re.sub(r'_[a-z0-9]+\.xlsx$', '', s)` (with `allowDigits`) or
`re.sub(r'_[a-z]+\.xlsx$', '', s)` (without), on an already-lowercased
filename: strip a trailing `_<propertycode>.xlsx` suffix.  The match,
when it exists, is the last `_` followed only by class characters up
to the `.xlsx` suffix. -/
def stripPropSuffix (allowDigits : Bool) (s : String) : String :=
  if pyEndsWith s ".xlsx" then
    let t := s.data.take (s.data.length - 5)
    let rcs := t.reverse
    let keep := fun c => ('a' ≤ c ∧ c ≤ 'z') ∨ (allowDigits ∧ c.isDigit)
    let run := rcs.takeWhile keep
    if run ≠ [] ∧ (rcs.drop run.length).head? = some '_' then
      String.mk (t.take (t.length - run.length - 1))
    else s
  else s

/-- `re.sub(r'\([^)]*\)', '', s)`: remove parenthesised groups
(`budget_comparison_parser.py:124`). -/
def removeParenAux : List Char → ℕ → List Char
  | _, 0 => []
  | [], _ => []
  | c :: rest, fuel + 1 =>
    if c = '(' then
      match splitFirstAux [')'] rest with
      | some (_, post) => removeParenAux post fuel
      | none => c :: removeParenAux rest fuel
    else c :: removeParenAux rest fuel

/-- `re.sub(r'\([^)]*\)', '', s)`. -/
def removeParenGroups (s : String) : String :=
  String.mk (removeParenAux s.data (s.data.length + 1))

/-- `re.sub(r'\^[^_]*', '', s)`: remove a caret and everything up to
the next underscore (`budget_comparison_parser.py:125`). -/
def removeCaretAux : List Char → ℕ → List Char
  | _, 0 => []
  | [], _ => []
  | c :: rest, fuel + 1 =>
    if c = '^' then removeCaretAux (rest.dropWhile (fun d => d ≠ '_')) fuel
    else c :: removeCaretAux rest fuel

/-- `re.sub(r'\^[^_]*', '', s)`. -/
def removeCaretGroups (s : String) : String :=
  String.mk (removeCaretAux s.data (s.data.length + 1))

/-- `identify_resanalytics_box_file` (`resanalytics_box_parser.py:194-206`). -/
def identify_resanalytics_box_file (filename : String) : Bool :=
  pyStartsWith (stripPropSuffix true (pyLower filename)) "resanalytics_box"

/-- `identify_work_order_file` (`work_order_parser.py:87-99`). -/
def identify_work_order_file (filename : String) : Bool :=
  pyStartsWith (stripPropSuffix true (pyLower filename)) "work_order"

/-- `identify_resanalytics_unit_file` (`resanalytics_unit_parser.py:127-139`). -/
def identify_resanalytics_unit_file (filename : String) : Bool :=
  pyStartsWith (stripPropSuffix false (pyLower filename)) "resanalytics_unit"

/-- `identify_resanalytics_market_file` (`resanalytics_market_parser.py:109-120`). -/
def identify_resanalytics_market_file (filename : String) : Bool :=
  pyStartsWith (stripPropSuffix false (pyLower filename)) "resanalytics_market"

/-- `identify_resanalytic_lease_file` (`resanalytic_lease_parser.py:88-99`). -/
def identify_resanalytic_lease_file (filename : String) : Bool :=
  pyStartsWith (stripPropSuffix false (pyLower filename)) "resanalytic_lease"

/-- `identify_budget_comparison_file` (`budget_comparison_parser.py:112-126`). -/
def identify_budget_comparison_file (filename : String) : Bool :=
  pyStartsWith
    (pyStrip (removeCaretGroups (removeParenGroups
      (stripPropSuffix false (pyLower filename)))))
    "budget_comparison"

/-- `identify_pending_make_file` (`pending_make_parser.py:105-117`). -/
def identify_pending_make_file (filename : String) : Bool :=
  pyStartsWith (pyReplace (stripPropSuffix false (pyLower filename)) "._" "_")
    "pending_make"

/-- `identify_resaranalytics_delinquency_file`
(`resaranalytics_delinquency_parser.py:126-137`). -/
def identify_resaranalytics_delinquency_file (filename : String) : Bool :=
  pyStartsWith (stripPropSuffix false (pyLower filename)) "resaranalytics_delinquency"

/-- `identify_residents_on_notice_file`
(`residents_on_notice_parser.py:130-142`); note Python's
`a or b and c` associates as `a or (b and c)`. -/
def identify_residents_on_notice_file (filename : String) : Bool :=
  let b := stripPropSuffix false (pyLower filename)
  pyStartsWith b "residents_on_notice" ∨ (pyContains b "residents" ∧ pyContains b "notice")

/-- `identify_comprehensive_internal_file`
(`comprehensive_internal_parser.py:309-326`). -/
def identify_comprehensive_internal_file (filename : String) : Bool :=
  pyContains (pyLower filename) "weekly report" ∧ pyEndsWith (pyLower filename) ".xlsx"

/-- Sheet names required by the 6-sheet identifier
(`comprehensive_6sheet_parser.py:515`). -/
def requiredSheets : List String := ["INPUT", "Cover", "Occ", "Fin", "Col", "Rent Cash"]

/-- `identify_comprehensive_6sheet_file`
(`comprehensive_6sheet_parser.py:489-524`): a filename check plus a
look into the workbook's sheet names; any read failure yields
`False`. -/
def identify_comprehensive_6sheet_file (w : World) (filePath : String) : Bool :=
  let filename := if w.fileExists filePath then basename filePath else filePath
  let baseName := pyLower filename
  if pyContains baseName "weekly report" ∧ pyEndsWith baseName ".xlsx" then
    match w.sheets filePath with
    | some ss => requiredSheets.all (fun r => ss.contains r)
    | none => false
  else false

/-- One entry of the `FILE_PATTERNS` registry (`file_parser.py:89-162`);
the parser function itself is abstracted by its pattern name, see
`parse_file`. -/
structure PatternInfo : Type where
  pattern : String
  identifier : String → Bool
  description : String

/-- The `FILE_PATTERNS` registry (`file_parser.py:89-162`), in source
order. -/
def filePatterns (w : World) : List PatternInfo :=
  [⟨"resanalytics_box", identify_resanalytics_box_file, "ResAnalytics Box Score Summary"⟩,
   ⟨"work_order", identify_work_order_file, "Work Order Report"⟩,
   ⟨"resanalytics_unit", identify_resanalytics_unit_file, "ResAnalytics Unit Availability Details"⟩,
   ⟨"resanalytics_market", identify_resanalytics_market_file, "ResAnalytics Market Rent Schedule"⟩,
   ⟨"resanalytic_lease", identify_resanalytic_lease_file, "ResAnalytic Lease Expiration"⟩,
   ⟨"budget_comparison", identify_budget_comparison_file, "Budget Comparison"⟩,
   ⟨"pending_make", identify_pending_make_file, "Pending Make Ready Unit Details"⟩,
   ⟨"resaranalytics_delinquency", identify_resaranalytics_delinquency_file,
     "ResARAnalytics Delinquency Summary"⟩,
   ⟨"residents_on_notice", identify_residents_on_notice_file, "Residents on Notice Report"⟩,
   ⟨"comprehensive_6sheet", identify_comprehensive_6sheet_file w,
     "Comprehensive 6-Sheet Weekly Report (55 PHARR format)"⟩,
   ⟨"comprehensive_internal", identify_comprehensive_internal_file,
     "Comprehensive Internal Weekly Report (Historical Data)"⟩,
   ⟨"comprehensive_weekly", fun filename => pyContains (pyLower filename) "weekly report",
     "Comprehensive Weekly Report (Property Weekly Report format)"⟩]

/-- `identify_file_type` (`file_parser.py:165-182`): first registry
entry whose identifier accepts the full path or the bare filename. -/
def identify_file_type (w : World) (filePath : String) : Option PatternInfo :=
  let filename := basename filePath
  (filePatterns w).find? (fun p => p.identifier filePath ∨ p.identifier filename)

/-- The value `parse_file` returns (`file_parser.py:195-228`):
either the chosen parser's result annotated with `file_type_info`, or
one of the two structured error dictionaries. -/
inductive ParseFileOutcome (α : Type) : Type where
  | parsed (result : α) (pattern description filename : String)
  | unknownType (error filePath : String) (supportedPatterns : List String)
  | errorResult (error filePath fileType : String)
  deriving DecidableEq, Repr

/-- `parse_file` (`file_parser.py:185-228`), abstracted over the
behavior `runParser` of the registered parser functions (indexed by
pattern name; `Except.error msg` models the parser raising an
exception with text `msg`).  A missing file raises
`FileNotFoundError`; an unmatched filename or a parser exception is
converted into a structured result. -/
def parse_file {α : Type} (w : World)
    (runParser : String → String → Except String α) (filePath : String) :
    Except PyErr (ParseFileOutcome α) :=
  if ¬ w.fileExists filePath then
    .error (.fileNotFound ("File not found: " ++ filePath))
  else
    let filename := basename filePath
    match identify_file_type w filePath with
    | none =>
      .ok (.unknownType ("Unknown file type for: " ++ filename) filePath
        ((filePatterns w).map (fun p => p.pattern)))
    | some pinfo =>
      match runParser pinfo.pattern filePath with
      | .ok r => .ok (.parsed r pinfo.pattern pinfo.description filename)
      | .error e =>
        .ok (.errorResult ("Error parsing " ++ filename ++ ": " ++ e) filePath
          pinfo.pattern)

/-- Dictionary lookup on an insertion-ordered association list (keys
are unique by construction). -/
def lookupKey (l : List (String × ℕ)) (k : String) : Option ℕ :=
  (l.find? (fun p => p.1 = k)).map Prod.snd

/-! ## Concrete fixtures -/

/-- A box-score grid whose `Availability` section has a header row,
three data rows and a trailing `Total` row. -/
def totalRowGrid : CellGrid :=
  [["Availability", "", ""],
   ["Code", "Name", "Units"],
   ["A1", "x", "1"],
   ["A2", "y", "2"],
   ["A3", "z", "3"],
   ["Total", "", "6"]]

/-- A box-score grid with a scoring header candidate. -/
def headeredGrid : CellGrid := [["Availability"], ["Code", "Units"]]

/-- A box-score grid whose section is followed by no header-like row. -/
def headerlessGrid : CellGrid := [["Availability"], ["foo"]]

/-- A grid in which the availability keyword group matches the first
cell of rows 0 and 2. -/
def duplicateSectionGrid : CellGrid :=
  [["Availability"], ["x"], ["Availability again"]]

/-- A world in which every path exists and no workbook can be read. -/
def plainWorld : World := ⟨fun _ => true, fun _ => none⟩

/-- A parser-behavior function that always raises `boom`. -/
def boomParsers : String → String → Except String ℕ := fun _ _ => .error "boom"

/-- A data row (after slicing to header width) is kept by the
box-score data-row loop: not all-blank, not a section boundary, no
`total` in its first cell. -/
abbrev KeptRow (w : ℕ) (r : Row) : Prop :=
  ((rowSlice w r).all (fun c => pyStrip c = "")) = false ∧
  isBoxBoundary (pyStrip (pyLower ((rowSlice w r).headD ""))) = false ∧
  pyContains (pyStrip (pyLower ((rowSlice w r).headD ""))) "total" = false

/-- A total row: non-blank, not a section boundary, `total` in its
first cell. -/
abbrev TotalRow (w : ℕ) (r : Row) : Prop :=
  ((rowSlice w r).all (fun c => pyStrip c = "")) = false ∧
  isBoxBoundary (pyStrip (pyLower ((rowSlice w r).headD ""))) = false ∧
  pyContains (pyStrip (pyLower ((rowSlice w r).headD ""))) "total" = true

/-! # Theorems -/

/-- Claim C2, counterexample: the budget parser's numeric cleaning
deletes the characters `(` and `)` without negating, so `"(500)"`
coerces to `500.0`, not `-500.0`; and the blank string coerces to NaN
(null), not `0.0`. -/
theorem C2_counterexample :
    budgetCoerceCell "(500)" = some 500 ∧
    budgetCoerceCell "(500)" ≠ some (-500) ∧
    budgetCoerceCell "" = none := by
  refine ⟨by decide, ?_, by decide⟩
  intro h
  have : (500 : ℚ) = -500 := by injection h
  norm_num at this

/-- Claim C2, amended: in a numeric-keyword column the budget parser
strips `$`, `,`, `(` and `)` characters (dropping the
parenthesis-as-negative sign) and turns every `-` into `0`, so
`"$1,234.00"` coerces to `1234.0`, `"(500)"` to `500.0`, `"-"` to
`0.0`, while `""` and non-numeric garbage coerce to null; the box
parser strips `,` and `$`, maps `""` to `0`, and maps every
unparsable value — `"-"`, `"(500)"`, garbage — to `0.0`.  Both
cleaners are total functions: they never raise. -/
theorem C2_numeric_coercion_values :
    budgetCoerceCell "$1,234.00" = some 1234 ∧
    budgetCoerceCell "(500)" = some 500 ∧
    budgetCoerceCell "-" = some 0 ∧
    budgetCoerceCell "" = none ∧
    budgetCoerceCell "n/a" = none ∧
    boxCoerceCell "$1,234.00" = 1234 ∧
    boxCoerceCell "-" = 0 ∧
    boxCoerceCell "" = 0 ∧
    boxCoerceCell "(500)" = 0 ∧
    boxCoerceCell "n/a" = 0 := by
  decide

/-- Claim C6: the claim says metadata extraction never raises
regardless of the grid's shape; but `parse_budget_comparison` reads
`df_raw.iloc[2, 0]` and `df_raw.iloc[3, 0]` without a length guard
(while row 1 is guarded by `len(df_raw) > 1`), so a 2-row grid raises
`IndexError` during metadata extraction. -/
theorem C6_budget_metadata_short_grid_raises :
    budgetMetadata [["x"], ["y"]] = .error .indexError := rfl

/-- Claim C10: the claim says the returned dictionary always has the
`metadata`/`file_path`/`parser_type` keys; but when
`parse_work_order_report` finds a header row that is not followed by
any non-empty data row, `work_order_df` is never assigned and the
`return` statement raises `UnboundLocalError`, so no dictionary is
returned at all. -/
theorem C10_work_order_missing_data_raises :
    parse_work_order_report "Work_Order_Report_marbla.xlsx" [["WO#", "Brief Desc"]] =
      .error .unboundLocalError := rfl

/-- Claim C9: parsing is deterministic and idempotent — running the
box-score parser twice on the same grid yields structurally identical
metadata and section tables.  The embedding is stateless because the
Python parser touches only local variables and read-only module
constants, so both runs are the same pure function application. -/
theorem C9_parse_idempotent (filePath : String) (g : CellGrid) :
    (parse_resanalytics_box_score filePath g).metadata =
      (parse_resanalytics_box_score filePath g).metadata ∧
    (parse_resanalytics_box_score filePath g).data_sections =
      (parse_resanalytics_box_score filePath g).data_sections ∧
    parse_resanalytics_box_score filePath g = parse_resanalytics_box_score filePath g :=
  ⟨rfl, rfl, rfl⟩

/-- Helper: removing the trailing run of elements satisfying `p`
yields a prefix, everything removed satisfies `p`, and the new last
element (when any) does not. -/
theorem dropTrailing_spec (p : String → Bool) (raw : List String) :
    (raw.reverse.dropWhile p).reverse <+: raw ∧
    (∀ j x, ((raw.reverse.dropWhile p).reverse).length ≤ j → raw.get? j = some x →
      p x = true) ∧
    (∀ x, ((raw.reverse.dropWhile p).reverse).getLast? = some x → p x = false) := by
  have hsplit : raw = (raw.reverse.dropWhile p).reverse ++ (raw.reverse.takeWhile p).reverse := by
    have h := List.takeWhile_append_dropWhile (p := p) (l := raw.reverse)
    calc raw = raw.reverse.reverse := (List.reverse_reverse raw).symm
    _ = (raw.reverse.takeWhile p ++ raw.reverse.dropWhile p).reverse := by rw [h]
    _ = (raw.reverse.dropWhile p).reverse ++ (raw.reverse.takeWhile p).reverse := by
        rw [List.reverse_append]
  refine ⟨⟨(raw.reverse.takeWhile p).reverse, hsplit.symm⟩, ?_, ?_⟩
  · intro j x hj hx
    rw [hsplit, List.get?_append_right hj] at hx
    have hxmem : x ∈ (raw.reverse.takeWhile p).reverse := List.get?_mem hx
    rw [List.mem_reverse] at hxmem
    exact List.mem_takeWhile_imp hxmem
  · intro x hx
    rw [List.getLast?_reverse] at hx
    have hlen : 0 < (raw.reverse.dropWhile p).length := by
      cases hh : raw.reverse.dropWhile p with
      | nil => rw [hh] at hx; cases hx
      | cons a l => simp [hh]
    have hx0 : (raw.reverse.dropWhile p).get ⟨0, hlen⟩ = x := by
      have hh : (raw.reverse.dropWhile p).head? = (raw.reverse.dropWhile p).get? 0 := by
        cases raw.reverse.dropWhile p
        · rfl
        · rfl
      have := (List.get?_eq_get (l := raw.reverse.dropWhile p) (n := 0) hlen).symm.trans
        (hh.symm.trans hx)
      exact Option.some_injective _ this
    have := List.dropWhile_get_zero_not (p := p) raw.reverse hlen
    rw [hx0] at this
    simpa using this

/-- Claim C4 (amended): for adjacent header rows and a column index
within both rows, the merged name follows the stated per-column rule
(concatenate distinct non-empty cells with a space, take a common or
single non-empty cell as-is, use `Column_<index>` when both are
empty); afterwards only the *trailing* run of synthetic `Column_`
names is truncated — the merged headers are a prefix of the raw
per-column merge, every truncated entry is synthetic, the remaining
last entry is not synthetic, and interior synthetic columns are kept
(header-reading does not stop at the first synthetic column); in
particular `["Code","Move"]` over `["","In"]` merges to
`["Code", "Move In"]`. -/
theorem C4_header_merge_rule (r1 r2 : Row) (i : ℕ) (h1 : i < r1.length)
    (h2 : i < r2.length) :
    ((mergedHeadersRaw r1 r2).get? i = some (
      if pyStrip ((r1.get? i).getD "") = "" ∧ pyStrip ((r2.get? i).getD "") = "" then
        "Column_" ++ natToStr i
      else if pyStrip ((r2.get? i).getD "") = "" then pyStrip ((r1.get? i).getD "")
      else if pyStrip ((r1.get? i).getD "") = "" then pyStrip ((r2.get? i).getD "")
      else if pyStrip ((r1.get? i).getD "") = pyStrip ((r2.get? i).getD "") then
        pyStrip ((r1.get? i).getD "")
      else pyStrip (pyStrip ((r1.get? i).getD "") ++ " " ++ pyStrip ((r2.get? i).getD "")))) ∧
    mergedHeaders r1 r2 <+: mergedHeadersRaw r1 r2 ∧
    (∀ j x, (mergedHeaders r1 r2).length ≤ j → (mergedHeadersRaw r1 r2).get? j = some x →
      pyStartsWith x "Column_" = true) ∧
    (∀ x, (mergedHeaders r1 r2).getLast? = some x → pyStartsWith x "Column_" = false) ∧
    mergedHeaders ["Code", "Move"] ["", "In"] = ["Code", "Move In"] := by
  have hspec := dropTrailing_spec (fun h => pyStartsWith h "Column_") (mergedHeadersRaw r1 r2)
  refine ⟨?_, hspec.1, hspec.2.1, hspec.2.2, by decide⟩
  have hz : (r1.zip r2).get? i = some (r1.get ⟨i, h1⟩, r2.get ⟨i, h2⟩) :=
    (List.get?_zip_eq_some _ _ _ _).mpr ⟨List.get?_eq_get h1, List.get?_eq_get h2⟩
  unfold mergedHeadersRaw
  rw [List.get?_map, List.enum_get?, hz]
  simp only [Option.map_some']
  rw [List.get?_eq_get h1, List.get?_eq_get h2]
  simp only [Option.getD_some]
  congr 1
  unfold combineHeaderPair
  by_cases ha : pyStrip (r1.get ⟨i, h1⟩) = "" <;>
    by_cases hb : pyStrip (r2.get ⟨i, h2⟩) = "" <;>
    by_cases hab : pyStrip (r1.get ⟨i, h1⟩) = pyStrip (r2.get ⟨i, h2⟩) <;>
    simp_all

/-- Witness for C4: the rule applied to the claim's example pair at
column 1, with the concrete merge results. -/
theorem C4_header_merge_rule_witness :
    (mergedHeadersRaw ["Code", "Move"] ["", "In"]).get? 1 = some "Move In" ∧
    mergedHeaders ["Code", "Move"] ["", "In"] = ["Code", "Move In"] := by
  have h := C4_header_merge_rule ["Code", "Move"] ["", "In"] 1 (by decide) (by decide)
  refine ⟨?_, h.2.2.2.2⟩
  have h1 := h.1
  rw [h1]
  decide

/-- Claim C4, counterexample: header-reading does not stop at the
first synthetic `Column_<i>` name — an interior both-empty column
yields `Column_1` and the following columns are still read; only a
trailing run of synthetic names is removed. -/
theorem C4_counterexample :
    mergedHeaders ["Code", "", "Move"] ["", "", "In"] = ["Code", "Column_1", "Move In"] ∧
    mergedHeaders ["Code", "", "Move"] ["", "", "In"] ≠ ["Code"] := by
  decide

/-- Claim C7: for every existing file whose filename matches no
parser predicate, `parse_file` returns a structured unknown-file-type
result naming the attempted filename and listing the registry's
twelve supported patterns, rather than raising. -/
theorem C7_unknown_file_type {α : Type} (w : World)
    (runParser : String → String → Except String α) (filePath : String)
    (hex : w.fileExists filePath = true)
    (hid : identify_file_type w filePath = none) :
    parse_file w runParser filePath =
      .ok (.unknownType ("Unknown file type for: " ++ basename filePath) filePath
        ["resanalytics_box", "work_order", "resanalytics_unit", "resanalytics_market",
         "resanalytic_lease", "budget_comparison", "pending_make",
         "resaranalytics_delinquency", "residents_on_notice", "comprehensive_6sheet",
         "comprehensive_internal", "comprehensive_weekly"]) := by
  simp only [parse_file, hex, Bool.true_eq_false, not_true_eq_false, if_false, hid]
  rfl

/-- Witness for C7: `randomfile.xlsx` matches no predicate and yields
the structured unknown-file-type result. -/
theorem C7_unknown_file_type_witness :
    parse_file plainWorld boomParsers "randomfile.xlsx" =
      .ok (.unknownType "Unknown file type for: randomfile.xlsx" "randomfile.xlsx"
        ["resanalytics_box", "work_order", "resanalytics_unit", "resanalytics_market",
         "resanalytic_lease", "budget_comparison", "pending_make",
         "resaranalytics_delinquency", "residents_on_notice", "comprehensive_6sheet",
         "comprehensive_internal", "comprehensive_weekly"]) :=
  C7_unknown_file_type plainWorld boomParsers "randomfile.xlsx" rfl rfl

/-- Claim C8: an exception inside the chosen parser is caught by
`parse_file` and converted to a structured-error result carrying the
error text, the file path and the file type; only the missing-file
condition propagates as an exception to the caller. -/
theorem C8_parser_exception_absorbed {α : Type} (w : World)
    (runParser : String → String → Except String α) (filePath : String) (e : String)
    (pinfo : PatternInfo)
    (hex : w.fileExists filePath = true)
    (hid : identify_file_type w filePath = some pinfo)
    (herr : runParser pinfo.pattern filePath = .error e) :
    (parse_file w runParser filePath =
      .ok (.errorResult ("Error parsing " ++ basename filePath ++ ": " ++ e) filePath
        pinfo.pattern)) ∧
    (∀ (w' : World), w'.fileExists filePath = false →
      parse_file w' runParser filePath =
        .error (.fileNotFound ("File not found: " ++ filePath))) := by
  constructor
  · simp only [parse_file, hex, Bool.true_eq_false, not_true_eq_false, if_false, hid, herr]
  · intro w' hw'
    simp [parse_file, hw']

/-- Witness for C8: a parser raising `boom` on a recognized work-order
file is absorbed into a structured-error result, while a missing file
raises `FileNotFoundError`. -/
theorem C8_parser_exception_absorbed_witness :
    parse_file plainWorld boomParsers "Work_Order_Report_marbla.xlsx" =
      .ok (.errorResult "Error parsing Work_Order_Report_marbla.xlsx: boom"
        "Work_Order_Report_marbla.xlsx" "work_order") ∧
    parse_file ⟨fun _ => false, fun _ => none⟩ boomParsers "Work_Order_Report_marbla.xlsx" =
      .error (.fileNotFound "File not found: Work_Order_Report_marbla.xlsx") := by
  have h := C8_parser_exception_absorbed plainWorld boomParsers
    "Work_Order_Report_marbla.xlsx" "boom"
    ⟨"work_order", identify_work_order_file, "Work Order Report"⟩ rfl rfl rfl
  exact ⟨h.1, h.2 ⟨fun _ => false, fun _ => none⟩ rfl⟩

/-- Helper: a fold step preserves a predicate. -/
theorem foldl_preserves {α β : Type} (f : β → α → β) (P : β → Prop)
    (hstep : ∀ b a, P b → P (f b a)) : ∀ (l : List α) (b : β), P b → P (l.foldl f b)
  | [], _, h => h
  | a :: l, b, h => foldl_preserves f P hstep l (f b a) (hstep b a h)

/-- Helper: a fold step preserves a predicate, step facts available
only for list members. -/
theorem foldl_preserves_mem {α β : Type} (f : β → α → β) (P : β → Prop) :
    ∀ (l : List α), (∀ b a, a ∈ l → P b → P (f b a)) → ∀ (b : β), P b → P (l.foldl f b)
  | [], _, _, h => h
  | a :: l, hstep, b, h =>
    foldl_preserves_mem f P l
      (fun b' a' ha' => hstep b' a' (List.mem_cons_of_mem a ha'))
      (f b a) (hstep b a (List.mem_cons_self a l) h)

/-- Helper: a key of the updated list is the written key or an old
key. -/
theorem assocUpdate_mem_keys :
    ∀ (l : List (String × ℕ)) (k : String) (v : ℕ) (x : String),
      x ∈ (assocUpdate l k v).map Prod.fst → x ∈ l.map Prod.fst ∨ x = k
  | [], k, v, x, h => by
    right
    simpa [assocUpdate] using h
  | p :: l, k, v, x, h => by
    by_cases hp : p.1 = k
    · simp only [assocUpdate, hp, if_true, List.map_cons, List.mem_cons] at h
      rcases h with h | h
      · right; exact h
      · left; simp [h]
    · simp only [assocUpdate, hp, if_false, List.map_cons, List.mem_cons] at h
      rcases h with h | h
      · left; simp [h]
      · rcases assocUpdate_mem_keys l k v x h with h' | h'
        · left; simp [h']
        · right; exact h'

/-- Helper: Python-dict update preserves distinctness of keys. -/
theorem assocUpdate_keys_nodup :
    ∀ (l : List (String × ℕ)) (k : String) (v : ℕ),
      (l.map Prod.fst).Nodup → ((assocUpdate l k v).map Prod.fst).Nodup
  | [], k, v, _ => by simp [assocUpdate]
  | p :: l, k, v, h => by
    by_cases hp : p.1 = k
    · simp only [assocUpdate, hp, if_true, List.map_cons] at h ⊢
      subst hp
      exact h
    · simp only [List.map_cons, List.nodup_cons] at h
      simp only [assocUpdate, hp, if_false, List.map_cons, List.nodup_cons]
      refine ⟨?_, assocUpdate_keys_nodup l k v h.2⟩
      intro hmem
      rcases assocUpdate_mem_keys l k v p.1 hmem with h' | h'
      · exact h.1 h'
      · exact hp h'

/-- Helper: a conditional dict update preserves distinct keys. -/
theorem ite_update_keys_nodup (c : Prop) [Decidable c] (l : List (String × ℕ))
    (k : String) (v : ℕ) (h : (l.map Prod.fst).Nodup) :
    (((if c then assocUpdate l k v else l).map Prod.fst)).Nodup := by
  split
  · exact assocUpdate_keys_nodup l k v h
  · exact h

/-- Helper: one section-location scan step preserves distinct keys. -/
theorem locateStep_keys_nodup (g : CellGrid) (acc : List (String × ℕ)) (i : ℕ)
    (h : (acc.map Prod.fst).Nodup) : ((locateStep g acc i).map Prod.fst).Nodup := by
  unfold locateStep sectionPatterns
  simp only [List.foldl_cons, List.foldl_nil]
  exact ite_update_keys_nodup _ _ _ _
    (ite_update_keys_nodup _ _ _ _ (ite_update_keys_nodup _ _ _ _ h))

/-- Helper: the section-location mapping has distinct keys. -/
theorem sectionLocations_keys_nodup (g : CellGrid) :
    ((sectionLocations g).map Prod.fst).Nodup := by
  unfold sectionLocations
  exact foldl_preserves (locateStep g) (fun acc => (acc.map Prod.fst).Nodup)
    (fun acc i h => locateStep_keys_nodup g acc i h) (List.range g.length) [] (by simp)

/-- Helper: looking up the written key after a dict update. -/
theorem lookupKey_update_self :
    ∀ (l : List (String × ℕ)) (k : String) (v : ℕ),
      lookupKey (assocUpdate l k v) k = some v
  | [], k, v => by simp [assocUpdate, lookupKey]
  | p :: l, k, v => by
    by_cases hp : p.1 = k
    · simp [assocUpdate, hp, lookupKey]
    · rw [assocUpdate, if_neg hp]
      unfold lookupKey
      rw [List.find?_cons_of_neg _ (by simpa using hp)]
      exact lookupKey_update_self l k v

/-- Helper: looking up a different key after a dict update. -/
theorem lookupKey_update_other :
    ∀ (l : List (String × ℕ)) (k : String) (v : ℕ) (name : String), k ≠ name →
      lookupKey (assocUpdate l k v) name = lookupKey l name
  | [], k, v, name, h => by
    unfold assocUpdate lookupKey
    rw [List.find?_cons_of_neg _ (by simpa using h)]
  | p :: l, k, v, name, h => by
    by_cases hp : p.1 = k
    · rw [assocUpdate, if_pos hp]
      unfold lookupKey
      rw [List.find?_cons_of_neg _ (by simpa using h),
        List.find?_cons_of_neg _ (by simp [hp]; simpa using h)]
    · rw [assocUpdate, if_neg hp]
      by_cases hpn : p.1 = name
      · unfold lookupKey
        rw [List.find?_cons_of_pos _ (by simpa using hpn),
          List.find?_cons_of_pos _ (by simpa using hpn)]
      · unfold lookupKey
        rw [List.find?_cons_of_neg _ (by simpa using hpn),
          List.find?_cons_of_neg _ (by simpa using hpn)]
        exact lookupKey_update_other l k v name h

/-- Helper: a conditional update of another key does not change a
lookup. -/
theorem lookupKey_ite_other (c : Prop) [Decidable c] (l : List (String × ℕ))
    (k : String) (v : ℕ) (name : String) (h : k ≠ name) :
    lookupKey (if c then assocUpdate l k v else l) name = lookupKey l name := by
  split
  · exact lookupKey_update_other l k v name h
  · rfl

/-- Helper: a conditional update of the looked-up key. -/
theorem lookupKey_ite_self (c : Prop) [Decidable c] (l : List (String × ℕ))
    (k : String) (v : ℕ) :
    lookupKey (if c then assocUpdate l k v else l) k =
      if c then some v else lookupKey l k := by
  by_cases hc : c
  · rw [if_pos hc, if_pos hc]
    exact lookupKey_update_self l k v
  · rw [if_neg hc, if_neg hc]

/-- Helper: effect of one section-location scan step on the lookup of
a registered section name. -/
theorem locateStep_lookup (g : CellGrid) (acc : List (String × ℕ)) (i : ℕ)
    (name : String) (pats : List String) (hmem : (name, pats) ∈ sectionPatterns) :
    lookupKey (locateStep g acc i) name =
      if sectionMatches name pats (pyStrip (pyLower (getCell g i 0))) then some i
      else lookupKey acc name := by
  fin_cases hmem <;>
    simp only [locateStep, sectionPatterns, List.foldl_cons, List.foldl_nil]
  · rw [lookupKey_ite_other _ _ _ _ _ (by decide),
      lookupKey_ite_other _ _ _ _ _ (by decide),
      lookupKey_ite_self]
  · rw [lookupKey_ite_other _ _ _ _ _ (by decide),
      lookupKey_ite_self,
      lookupKey_ite_other _ _ _ _ _ (by decide)]
  · rw [lookupKey_ite_self,
      lookupKey_ite_other _ _ _ _ _ (by decide),
      lookupKey_ite_other _ _ _ _ _ (by decide)]

/-- Helper: lookup after the row scan equals the last matching row
index of the scanned block, falling back to the initial mapping. -/
theorem fold_locate_lookup (g : CellGrid) (name : String) (pats : List String)
    (hmem : (name, pats) ∈ sectionPatterns) (l : List ℕ) (acc : List (String × ℕ)) :
    lookupKey (l.foldl (locateStep g) acc) name =
      ((l.filter (fun i =>
        sectionMatches name pats (pyStrip (pyLower (getCell g i 0))))).getLast?).elim
        (lookupKey acc name) some := by
  induction l using List.reverseRecOn with
  | nil => simp
  | append_singleton l k ih =>
    rw [List.foldl_append, List.foldl_cons, List.foldl_nil,
      locateStep_lookup g _ k name pats hmem, List.filter_append]
    by_cases hk : sectionMatches name pats (pyStrip (pyLower (getCell g k 0))) = true
    · simp [hk, List.getLast?_concat]
    · simp only [List.filter_cons, List.filter_nil, hk, Bool.false_eq_true, if_false,
        if_neg hk, List.append_nil]
      exact ih

/-- Helper: in a strictly increasing list, `getLast?` bounds every
member from above. -/
theorem pairwise_lt_getLast?_max :
    ∀ (l : List ℕ), l.Pairwise (· < ·) → ∀ x ∈ l, ∃ k, l.getLast? = some k ∧ x ≤ k
  | [], _, x, hx => absurd hx (List.not_mem_nil x)
  | a :: [], _, x, hx => by
    simp only [List.mem_singleton] at hx
    subst hx
    exact ⟨x, rfl, le_rfl⟩
  | a :: b :: l, hl, x, hx => by
    have htail : (b :: l).Pairwise (· < ·) := hl.of_cons
    have hab : ∀ y ∈ b :: l, a < y := (List.pairwise_cons.mp hl).1
    rcases List.mem_cons.mp hx with rfl | hx'
    · rcases pairwise_lt_getLast?_max (b :: l) htail b (List.mem_cons_self b l) with
        ⟨k, hk, hbk⟩
      exact ⟨k, by simpa [List.getLast?_cons_cons] using hk,
        le_of_lt (lt_of_lt_of_le (hab b (List.mem_cons_self b l)) hbk)⟩
    · rcases pairwise_lt_getLast?_max (b :: l) htail x hx' with ⟨k, hk, hxk⟩
      exact ⟨k, by simpa [List.getLast?_cons_cons] using hk, hxk⟩

/-- Claim C5: when a section's keyword group matches the first cell of
more than one row, the section locator maps the section name to the
row index of the last matching row — the lookup yields a matching row
index `k` that is an upper bound of all matching row indices
(last-match-wins). -/
theorem C5_section_locator_last_match_wins (g : CellGrid) (name : String)
    (pats : List String) (i j : ℕ) (hmem : (name, pats) ∈ sectionPatterns)
    (_hij : i < j) (hj : j < g.length)
    (_hi : sectionMatches name pats (pyStrip (pyLower (getCell g i 0))) = true)
    (hjm : sectionMatches name pats (pyStrip (pyLower (getCell g j 0))) = true) :
    ∃ k, lookupKey (sectionLocations g) name = some k ∧ j ≤ k ∧ k < g.length ∧
      sectionMatches name pats (pyStrip (pyLower (getCell g k 0))) = true ∧
      ∀ m, m < g.length →
        sectionMatches name pats (pyStrip (pyLower (getCell g m 0))) = true → m ≤ k := by
  have hfl := fold_locate_lookup g name pats hmem (List.range g.length) []
  have hjf : j ∈ (List.range g.length).filter
      (fun i => sectionMatches name pats (pyStrip (pyLower (getCell g i 0)))) :=
    List.mem_filter.mpr ⟨List.mem_range.mpr hj, hjm⟩
  have hpw : ((List.range g.length).filter
      (fun i => sectionMatches name pats (pyStrip (pyLower (getCell g i 0))))).Pairwise
        (· < ·) := (List.pairwise_lt_range _).filter _
  rcases pairwise_lt_getLast?_max _ hpw j hjf with ⟨k, hk, hjk⟩
  have hkmem : k ∈ (List.range g.length).filter
      (fun i => sectionMatches name pats (pyStrip (pyLower (getCell g i 0)))) := by
    rcases List.mem_getLast?_eq_getLast (show k ∈ _ from by rw [hk]; rfl) with ⟨hne, hkl⟩
    rw [hkl]
    exact List.getLast_mem hne
  have hkrange := List.mem_filter.mp hkmem
  refine ⟨k, ?_, hjk, List.mem_range.mp hkrange.1, hkrange.2, ?_⟩
  · unfold sectionLocations
    rw [hfl, hk]
    rfl
  · intro m hm hmP
    rcases pairwise_lt_getLast?_max _ hpw m
        (List.mem_filter.mpr ⟨List.mem_range.mpr hm, hmP⟩) with ⟨k', hk', hmk'⟩
    rw [hk] at hk'
    cases hk'
    exact hmk'

/-- Witness for C5: in `duplicateSectionGrid` the availability keyword
group matches rows 0 and 2, and the locator records row 2. -/
theorem C5_section_locator_last_match_wins_witness :
    lookupKey (sectionLocations duplicateSectionGrid) "availability" = some 2 := by
  rcases C5_section_locator_last_match_wins duplicateSectionGrid "availability"
      ["availability", "avail"] 0 2 (by decide) (by decide) (by decide) (by decide)
      (by decide) with ⟨k, hk, h2k, hk3, _, _⟩
  have hk3' : k < 3 := by simpa [duplicateSectionGrid] using hk3
  have : k = 2 := by omega
  rw [this] at hk
  exact hk

/-- Helper: specification of the best-score fold of the header
resolver over a strictly increasing candidate list: either every
candidate scores zero and no row is chosen, or the chosen row is a
maximal-score candidate and the earliest such (strict `>` keeps the
incumbent on ties). -/
theorem fold_best_spec (g : CellGrid) (l : List ℕ) (hl : l.Pairwise (· < ·)) :
    (l.foldl (bestHeaderStep g) (none, 0) = (none, 0) ∧
      ∀ j ∈ l, rowScore (gridRow g j) = 0) ∨
    (∃ i ∈ l, l.foldl (bestHeaderStep g) (none, 0) = (some i, rowScore (gridRow g i)) ∧
      0 < rowScore (gridRow g i) ∧
      (∀ j ∈ l, rowScore (gridRow g j) ≤ rowScore (gridRow g i)) ∧
      (∀ j ∈ l, rowScore (gridRow g j) = rowScore (gridRow g i) → i ≤ j)) := by
  induction l using List.reverseRecOn with
  | nil => left; exact ⟨rfl, by simp⟩
  | append_singleton l k ih =>
    have hl' : l.Pairwise (· < ·) := (List.pairwise_append.mp hl).1
    have hlk : ∀ j ∈ l, j < k := by
      intro j hj
      exact (List.pairwise_append.mp hl).2.2 j hj k (by simp)
    rw [List.foldl_append, List.foldl_cons, List.foldl_nil]
    rcases ih hl' with ⟨hst, hzero⟩ | ⟨i, hi, hst, hpos, hmax, htie⟩
    · rw [hst]
      by_cases hk : 0 < rowScore (gridRow g k)
      · right
        refine ⟨k, by simp, ?_, hk, ?_, ?_⟩
        · simp [bestHeaderStep, hk]
        · intro j hj
          rcases List.mem_append.mp hj with hj | hj
          · rw [hzero j hj]; omega
          · rw [List.mem_singleton.mp hj]
        · intro j hj _
          rcases List.mem_append.mp hj with hj | hj
          · have := hzero j hj; omega
          · rw [List.mem_singleton.mp hj]
      · left
        have hk0 : rowScore (gridRow g k) = 0 := by omega
        refine ⟨by simp [bestHeaderStep, hk0], ?_⟩
        intro j hj
        rcases List.mem_append.mp hj with hj | hj
        · exact hzero j hj
        · rw [List.mem_singleton.mp hj]; exact hk0
    · rw [hst]
      by_cases hk : rowScore (gridRow g k) > rowScore (gridRow g i)
      · right
        refine ⟨k, by simp, by simp [bestHeaderStep, hk], by omega, ?_, ?_⟩
        · intro j hj
          rcases List.mem_append.mp hj with hj | hj
          · have := hmax j hj; omega
          · rw [List.mem_singleton.mp hj]
        · intro j hj hje
          rcases List.mem_append.mp hj with hj | hj
          · have := hmax j hj; omega
          · rw [List.mem_singleton.mp hj]
      · right
        refine ⟨i, by simp [hi], by simp [bestHeaderStep, hk], hpos, ?_, ?_⟩
        · intro j hj
          rcases List.mem_append.mp hj with hj | hj
          · exact hmax j hj
          · rw [List.mem_singleton.mp hj]; omega
        · intro j hj hje
          rcases List.mem_append.mp hj with hj | hj
          · exact htie j hj hje
          · rw [List.mem_singleton.mp hj]
            exact le_of_lt (hlk i hi)

/-- Helper: with distinct keys, membership of two pairs with the same
key forces equal values. -/
theorem mem_keys_nodup_unique :
    ∀ (l : List (String × ℕ)), (l.map Prod.fst).Nodup →
      ∀ (name : String) (i j : ℕ), (name, i) ∈ l → (name, j) ∈ l → i = j
  | [], _, _, i, j, hi, _ => absurd hi (List.not_mem_nil _)
  | p :: l, hnd, name, i, j, hi, hj => by
    simp only [List.map_cons, List.nodup_cons] at hnd
    rcases List.mem_cons.mp hi with hi' | hi' <;> rcases List.mem_cons.mp hj with hj' | hj'
    · have hij := hi'.trans hj'.symm
      exact (Prod.ext_iff.mp hij).2
    · exfalso
      apply hnd.1
      rw [← hi']
      exact List.mem_map.mpr ⟨(name, j), hj', rfl⟩
    · exfalso
      apply hnd.1
      rw [← hj']
      exact List.mem_map.mpr ⟨(name, i), hi', rfl⟩
    · exact mem_keys_nodup_unique l hnd.2 name i j hi' hj'

/-- Helper: if every located occurrence of a section name fails
extraction, the name is absent from the `data_sections` mapping. -/
theorem dataSections_omits (g : CellGrid) (name : String)
    (h : ∀ p ∈ sectionLocations g, p.1 = name → extractSectionData g p.2 p.1 = none) :
    name ∉ (dataSections g).map Prod.fst := by
  unfold dataSections
  have main : ∀ (locs : List (String × ℕ)) (acc : List (String × ExtractedTable)),
      (∀ p ∈ locs, p.1 = name → extractSectionData g p.2 p.1 = none) →
      name ∉ acc.map Prod.fst →
      name ∉ (locs.foldl (fun acc p =>
        match extractSectionData g p.2 p.1 with
        | some t => if t.rows.isEmpty then acc else acc ++ [(p.1, t)]
        | none => acc) acc).map Prod.fst := by
    intro locs
    induction locs with
    | nil => intro acc _ hacc; exact hacc
    | cons p locs ih =>
      intro acc hp hacc
      rw [List.foldl_cons]
      refine ih _ (fun q hq hqn => hp q (List.mem_cons_of_mem p hq) hqn) ?_
      rcases hext : extractSectionData g p.2 p.1 with _ | t
      · simp only [hext]
        exact hacc
      · simp only [hext]
        by_cases hname : p.1 = name
        · rw [hp p (List.mem_cons_self p locs) hname] at hext
          cases hext
        · split
          · exact hacc
          · simp only [List.map_append, List.map_cons, List.map_nil]
            intro hmem
            rcases List.mem_append.mp hmem with hmem | hmem
            · exact hacc hmem
            · simp only [List.mem_singleton] at hmem
              exact hname hmem.symm
  exact main (sectionLocations g) [] h (by simp)

/-- Claim C3: the header resolver inspects exactly the window of up
to 4 rows following the section start; a chosen header row scores
above zero, has maximal score in the window, and is the earliest row
with that score (strict `>` tie-break); when every candidate scores
zero no header row is chosen, the section extraction returns nothing,
and the section is omitted from the output mapping — no exception is
possible, the embedding being total. -/
theorem C3_header_resolver (g : CellGrid) (s : ℕ) :
    (∀ j, j ∈ windowIdxs g s ↔ s + 1 ≤ j ∧ j < min (s + 5) g.length) ∧
    (∀ i, findHeaderRow g s = some i →
      i ∈ windowIdxs g s ∧ 0 < rowScore (gridRow g i) ∧
      (∀ j ∈ windowIdxs g s, rowScore (gridRow g j) ≤ rowScore (gridRow g i)) ∧
      (∀ j ∈ windowIdxs g s, rowScore (gridRow g j) = rowScore (gridRow g i) → i ≤ j)) ∧
    ((∀ j ∈ windowIdxs g s, rowScore (gridRow g j) = 0) → findHeaderRow g s = none) ∧
    (∀ name, findHeaderRow g s = none → extractSectionData g s name = none) ∧
    (∀ name i, (name, i) ∈ sectionLocations g → extractSectionData g i name = none →
      name ∉ (dataSections g).map Prod.fst) := by
  have hwin : ∀ j, j ∈ windowIdxs g s ↔ s + 1 ≤ j ∧ j < min (s + 5) g.length := by
    intro j
    unfold windowIdxs
    rw [List.mem_range'_1]
    omega
  have hpw : (windowIdxs g s).Pairwise (· < ·) := List.pairwise_lt_range' _ _
  refine ⟨hwin, ?_, ?_, ?_, ?_⟩
  · intro i hi
    rcases fold_best_spec g (windowIdxs g s) hpw with ⟨hst, _⟩ | ⟨i', hi', hst, hpos, hmax, htie⟩
    · unfold findHeaderRow at hi
      rw [hst] at hi
      cases hi
    · unfold findHeaderRow at hi
      rw [hst] at hi
      cases hi
      exact ⟨hi', hpos, hmax, htie⟩
  · intro hz
    rcases fold_best_spec g (windowIdxs g s) hpw with ⟨hst, _⟩ | ⟨i', hi', hst, hpos, _, _⟩
    · unfold findHeaderRow
      rw [hst]
    · rw [hz i' hi'] at hpos
      omega
  · intro name h
    unfold extractSectionData
    rw [h]
  · intro name i hmem hnone
    apply dataSections_omits
    intro p hp hpname
    have : p.2 = i := by
      apply mem_keys_nodup_unique (sectionLocations g) (sectionLocations_keys_nodup g) name
      · rw [← hpname]
        exact hp
      · exact hmem
    rw [hpname, this]
    exact hnone

/-- Witness for C3: on `headeredGrid` the resolver picks row 1 (score
7, in the window, maximal, earliest); on `headerlessGrid` every
candidate scores zero, the resolver yields nothing, extraction yields
nothing, and `availability` is absent from the output mapping. -/
theorem C3_header_resolver_witness :
    (1 ∈ windowIdxs headeredGrid 0 ∧ 0 < rowScore (gridRow headeredGrid 1) ∧
      (∀ j ∈ windowIdxs headeredGrid 0,
        rowScore (gridRow headeredGrid j) ≤ rowScore (gridRow headeredGrid 1)) ∧
      (∀ j ∈ windowIdxs headeredGrid 0,
        rowScore (gridRow headeredGrid j) = rowScore (gridRow headeredGrid 1) → 1 ≤ j)) ∧
    findHeaderRow headerlessGrid 0 = none ∧
    extractSectionData headerlessGrid 0 "availability" = none ∧
    "availability" ∉ (dataSections headerlessGrid).map Prod.fst := by
  refine ⟨(C3_header_resolver headeredGrid 0).2.1 1 (by decide), ?_, ?_, ?_⟩
  · exact (C3_header_resolver headerlessGrid 0).2.2.1 (by decide)
  · exact (C3_header_resolver headerlessGrid 0).2.2.2.1 "availability" (by decide)
  · exact (C3_header_resolver headerlessGrid 0).2.2.2.2 "availability" 0 (by decide)
      (by decide)

/-- Claim C1, counterexample: on a grid with a section header, a
header row, three data rows and then a `Total` row, the extracted
`availability` table has 4 rows — the `Total` row is appended before
the loop breaks, so it is included as the last record rather than
excluded. -/
theorem C1_counterexample :
    (dataSections totalRowGrid).map (fun p => (p.1, p.2.rows.length)) =
      [("availability", 4)] ∧
    ((dataSections totalRowGrid).headD ("", ⟨[], []⟩)).2.rows.getLast? =
      some [.str "Total", .str "", .num 6] := by
  decide

/-- Helper for C1: running the data-row loop over kept rows followed
by a total row appends every kept row and then the total row itself,
provided at least two rows are already in hand when the total row is
reached. -/
theorem extractDataRows_run (w : ℕ) (t : Row) (rest : List Row) (ht : TotalRow w t) :
    ∀ (rs : List Row) (acc : List Row), (∀ r ∈ rs, KeptRow w r) →
      2 ≤ rs.length + acc.length →
      extractDataRows w (rs ++ t :: rest) acc =
        acc.reverse ++ rs.map (rowSlice w) ++ [rowSlice w t] := by
  intro rs
  induction rs with
  | nil =>
    intro acc _ hlen
    have hacc : 2 ≤ acc.length := by simpa using hlen
    rw [List.nil_append]
    simp only [extractDataRows, ht.1, ht.2.1, ht.2.2, Bool.false_eq_true, if_false,
      List.length_cons]
    rw [if_pos ⟨by simp, by omega⟩]
    simp
  | cons r rs ih =>
    intro acc hks hlen
    have hr : KeptRow w r := hks r (List.mem_cons_self r rs)
    rw [List.cons_append]
    simp only [extractDataRows, hr.1, hr.2.1, hr.2.2, Bool.false_eq_true, if_false,
      false_and, List.length_cons]
    rw [ih (rowSlice w r :: acc) (fun x hx => hks x (List.mem_cons_of_mem r hx))
      (by simp at hlen ⊢; omega)]
    simp [List.append_assoc]

/-- Claim C1 (amended): row extraction terminates when it reaches a
row whose first cell contains `"total"` after at least 2 rows are
already collected, and that row is *included* as the final record:
for every kept-row block of length ≥ 2 followed by a total row, the
extracted rows are exactly the kept rows followed by the total row
(rows after the total row are ignored); with three data rows the
table thus has exactly 4 records, the last being the total row. -/
theorem C1_total_row_terminates_inclusive (w : ℕ) (rs : List Row) (t : Row)
    (rest : List Row) (hks : ∀ r ∈ rs, KeptRow w r) (ht : TotalRow w t)
    (hlen : 2 ≤ rs.length) :
    extractDataRows w (rs ++ t :: rest) [] = rs.map (rowSlice w) ++ [rowSlice w t] ∧
    (extractDataRows w (rs ++ t :: rest) []).length = rs.length + 1 ∧
    (extractDataRows w (rs ++ t :: rest) []).getLast? = some (rowSlice w t) := by
  have h := extractDataRows_run w t rest ht rs [] hks (by simpa using hlen)
  simp only [List.reverse_nil, List.nil_append] at h
  refine ⟨h, ?_, ?_⟩
  · rw [h]; simp
  · rw [h]; simp

/-- Witness for C1: the three data rows of `totalRowGrid` followed by
its `Total` row and a junk row after it — extraction keeps the three
data rows plus the `Total` row and never reaches the junk row. -/
theorem C1_total_row_terminates_inclusive_witness :
    extractDataRows 3
        ([[("A1" : String), "x", "1"], ["A2", "y", "2"], ["A3", "z", "3"]] ++
          ["Total", "", "6"] :: [["junk", "junk", "junk"]]) [] =
      [[("A1" : String), "x", "1"], ["A2", "y", "2"], ["A3", "z", "3"]].map (rowSlice 3) ++
        [rowSlice 3 ["Total", "", "6"]] :=
  (C1_total_row_terminates_inclusive 3
    [["A1", "x", "1"], ["A2", "y", "2"], ["A3", "z", "3"]]
    ["Total", "", "6"] [["junk", "junk", "junk"]]
    (by decide) (by decide) (by decide)).1

end Arcan
